import Mathlib

/-!
Shallow embedding of the indicator and regime-classification core of
`app.py`: pandas rolling means (NaN for the initial window, modelled as
`Option ℚ` with `none` standing for NaN), the moving-average trend
detector, the VIX-level classifier, and the substring-based regime
combinator. Real closes are plain `ℚ`; derived indicator series are
`List (Option ℚ)`. A function that can raise (an `iloc` on an empty
series) returns `Option`, with `none` for the exception.
-/

/-- Float comparison `a > b` under IEEE NaN semantics: any comparison
involving NaN (modelled as `none`) is false. -/
def ogt (a b : Option ℚ) : Bool :=
  match a, b with
  | some x, some y => decide (y < x)
  | _, _ => false

/-- Float comparison `a < b`; false when either side is NaN. -/
def olt (a b : Option ℚ) : Bool :=
  match a, b with
  | some x, some y => decide (x < y)
  | _, _ => false

/-- Float comparison `a >= b`; false when either side is NaN. -/
def oge (a b : Option ℚ) : Bool :=
  match a, b with
  | some x, some y => decide (y ≤ x)
  | _, _ => false

/-- Float comparison `a <= b`; false when either side is NaN. -/
def ole (a b : Option ℚ) : Bool :=
  match a, b with
  | some x, some y => decide (x ≤ y)
  | _, _ => false

/-- `series.rolling(window=w).mean()` on a list of closes: entry `i` is
the mean of the `w` values ending at index `i`, and NaN (`none`) while
fewer than `w` values are available (`i + 1 < w`). -/
def rollingMean (w : ℕ) (xs : List ℚ) : List (Option ℚ) :=
  (List.range xs.length).map (fun i =>
    if w ≤ i + 1 then some (((xs.drop (i + 1 - w)).take w).sum / (w : ℚ)) else none)

/-- `calculate_moving_averages(data, short_period, long_period)` from
`app.py`: `(None, None)` when `data` is `None` or empty, otherwise the
pair of rolling means of the closes. -/
def calculate_moving_averages (data : Option (List ℚ))
    (short_period long_period : ℕ) :
    Option (List (Option ℚ)) × Option (List (Option ℚ)) :=
  match data with
  | none => (none, none)
  | some d =>
    if d.isEmpty then (none, none)
    else (some (rollingMean short_period d), some (rollingMean long_period d))

/-- `ma.iloc[-2] if len(ma) > 1 else ma_current`: the previous sample of
an indicator series, falling back to the current one when only a single
sample exists. -/
def prevOf (s : List (Option ℚ)) (cur : Option ℚ) : Option ℚ :=
  if 1 < s.length then (s.get? (s.length - 2)).join else cur

/-- The if/elif chain of `get_trend_direction_ma` once the last close and
the current/previous MA samples have been read. -/
def trendLabel (lastClose : ℚ) (sCur lCur sPrev lPrev : Option ℚ) : String :=
  if ogt sCur lCur && ole sPrev lPrev then "Potential Uptrend (Golden Cross)"
  else if olt sCur lCur && oge sPrev lPrev then "Potential Downtrend (Death Cross)"
  else if ogt (some lastClose) sCur && ogt (some lastClose) lCur && ogt sCur lCur then
    "Uptrend (Above MAs)"
  else if olt (some lastClose) sCur && olt (some lastClose) lCur && olt sCur lCur then
    "Downtrend (Below MAs)"
  else "Neutral (Between MAs or Mixed)"

/-- `get_trend_direction_ma(data, ma_short, ma_long)` from `app.py`.
Returns `some label`, or `none` when an `iloc[-1]` on an empty series
would raise `IndexError` (unreachable through `main`'s wiring). -/
def get_trend_direction_ma (data : Option (List ℚ))
    (ma_short ma_long : Option (List (Option ℚ))) : Option String :=
  match data, ma_short, ma_long with
  | some d, some s, some l =>
    match d.getLast?, s.getLast?, l.getLast? with
    | some lastClose, some sCur, some lCur =>
      some (trendLabel lastClose sCur lCur (prevOf s sCur) (prevOf l lCur))
    | _, _, _ => none
  | _, _, _ => some "Neutral (Data Missing)"

/-- `get_vix_regime(vix_data, high_threshold, low_threshold)` from
`app.py`. A `none` or empty series yields the data-missing label;
otherwise the latest close is compared to the two thresholds. -/
def get_vix_regime (vix_data : Option (List ℚ)) (hi lo : ℚ) : String :=
  match vix_data with
  | none => "Neutral (VIX Data Missing)"
  | some v =>
    match v.getLast? with
    | none => "Neutral (VIX Data Missing)"
    | some cur =>
      if hi < cur then "Bearish (High Volatility)"
      else if cur < lo then "Bullish (Low Volatility)"
      else "Neutral (Moderate Volatility)"

/-- `n.isPrefixOf`-style check over characters, written out so substring
containment below is a plain structural recursion. -/
def leadMatch : List Char → List Char → Bool
  | [], _ => true
  | _ :: _, [] => false
  | a :: as, b :: bs => (a == b) && leadMatch as bs

/-- Substring search over character lists. -/
def hasSub (n : List Char) : List Char → Bool
  | [] => n.isEmpty
  | c :: t => leadMatch n (c :: t) || hasSub n t

/-- Python's `needle in hay` on strings: substring containment. -/
def strIn (needle hay : String) : Bool := hasSub needle.data hay.data

/-- `determine_overall_regime(trend_direction, vix_regime)` from
`app.py`: substring matching over the two label strings. -/
def determine_overall_regime (trend_direction vix_regime : String) : String :=
  if strIn "Downtrend" trend_direction || strIn "Bearish" vix_regime then
    if strIn "Uptrend" trend_direction || strIn "Bullish" vix_regime then
      "Uncertain/Mixed"
    else "Downtrend Regime"
  else if strIn "Uptrend" trend_direction || strIn "Bullish" vix_regime then
    "Uptrend Regime"
  else "Neutral Regime"

/-- The six trend states of the spec's data model (§3). -/
inductive TrendState
  | GoldenCross
  | DeathCross
  | UptrendAboveMAs
  | DowntrendBelowMAs
  | NeutralMixed
  | NeutralDataMissing
  deriving DecidableEq, Fintype

/-- The label string `get_trend_direction_ma` produces for each trend
state. -/
def TrendState.label : TrendState → String
  | TrendState.GoldenCross => "Potential Uptrend (Golden Cross)"
  | TrendState.DeathCross => "Potential Downtrend (Death Cross)"
  | TrendState.UptrendAboveMAs => "Uptrend (Above MAs)"
  | TrendState.DowntrendBelowMAs => "Downtrend (Below MAs)"
  | TrendState.NeutralMixed => "Neutral (Between MAs or Mixed)"
  | TrendState.NeutralDataMissing => "Neutral (Data Missing)"

/-- The four volatility regimes of the spec's data model (§3). -/
inductive VolatilityRegime
  | Bullish
  | Bearish
  | Neutral
  | DataMissing
  deriving DecidableEq, Fintype

/-- The label string `get_vix_regime` produces for each volatility
regime. -/
def VolatilityRegime.label : VolatilityRegime → String
  | VolatilityRegime.Bullish => "Bullish (Low Volatility)"
  | VolatilityRegime.Bearish => "Bearish (High Volatility)"
  | VolatilityRegime.Neutral => "Neutral (Moderate Volatility)"
  | VolatilityRegime.DataMissing => "Neutral (VIX Data Missing)"

/-- The four overall regimes of the spec's data model (§3). -/
inductive OverallRegime
  | UptrendRegime
  | DowntrendRegime
  | NeutralRegime
  | UncertainMixed
  deriving DecidableEq, Fintype

/-- The label string `determine_overall_regime` produces for each overall
regime. -/
def OverallRegime.label : OverallRegime → String
  | OverallRegime.UptrendRegime => "Uptrend Regime"
  | OverallRegime.DowntrendRegime => "Downtrend Regime"
  | OverallRegime.NeutralRegime => "Neutral Regime"
  | OverallRegime.UncertainMixed => "Uncertain/Mixed"

/-- A trend state carrying a downtrend signal. -/
def trendDownB : TrendState → Bool
  | TrendState.DeathCross => true
  | TrendState.DowntrendBelowMAs => true
  | _ => false

/-- A trend state carrying an uptrend signal. -/
def trendUpB : TrendState → Bool
  | TrendState.GoldenCross => true
  | TrendState.UptrendAboveMAs => true
  | _ => false

/-- Number of defined (non-NaN) samples of an indicator series. -/
def definedCount (s : List (Option ℚ)) : ℕ := (s.filter Option.isSome).length

/-- Modelled from the spec: the repository's RSI indicator is not in
`src/app.py`, so its per-step gains are taken from §4.2: for each
consecutive pair of closes, `gain = max(delta, 0)` where
`delta = close_t - close_(t-1)`. -/
def gainsOf : List ℚ → List ℚ
  | a :: b :: rest => max (b - a) 0 :: gainsOf (b :: rest)
  | _ => []

/-- Modelled from the spec: per-step losses of the RSI indicator,
`loss = max(-delta, 0)` for each consecutive pair of closes (§4.2). -/
def lossesOf : List ℚ → List ℚ
  | a :: b :: rest => max (a - b) 0 :: lossesOf (b :: rest)
  | _ => []

/-- Modelled from the spec: average gain over the rolling window of `w`
deltas ending at price index `i` (§4.2). -/
def avgGain (w : ℕ) (closes : List ℚ) (i : ℕ) : ℚ :=
  (((gainsOf closes).drop (i - w)).take w).sum / (w : ℚ)

/-- Modelled from the spec: average loss over the rolling window of `w`
deltas ending at price index `i` (§4.2). -/
def avgLoss (w : ℕ) (closes : List ℚ) (i : ℕ) : ℚ :=
  (((lossesOf closes).drop (i - w)).take w).sum / (w : ℚ)

/-- Modelled from the spec: `RSI(series, window)` (§4.2) — undefined for
the first `window` samples; elsewhere `100 - 100/(1 + avg_gain/avg_loss)`,
saturating at 100 when the average loss is 0. -/
def rsi (w : ℕ) (closes : List ℚ) : List (Option ℚ) :=
  (List.range closes.length).map (fun i =>
    if w ≤ i then
      some (if avgLoss w closes i = 0 then 100
            else 100 - 100 / (1 + avgGain w closes i / avgLoss w closes i))
    else none)

/-- Length of a rolling mean equals the length of its source series. -/
theorem rollingMean_length (w : ℕ) (xs : List ℚ) :
    (rollingMean w xs).length = xs.length := by
  simp [rollingMean]

/-- Pointwise description of the rolling mean at an in-range index. -/
theorem rollingMean_get (w : ℕ) (xs : List ℚ) (i : ℕ) (h : i < xs.length) :
    (rollingMean w xs).get? i =
      some (if w ≤ i + 1 then
              some (((xs.drop (i + 1 - w)).take w).sum / (w : ℚ))
            else none) := by
  simp [rollingMean, List.get?_eq_getElem?, List.getElem?_map,
    List.getElem?_range, h]

/-- Claim C1 counterexample: with trend `UptrendAboveMAs` and volatility
regime `Bearish`, `determine_overall_regime` does not return
`DowntrendRegime`. -/
theorem c1_counterexample :
    determine_overall_regime TrendState.UptrendAboveMAs.label
        VolatilityRegime.Bearish.label ≠
      OverallRegime.DowntrendRegime.label := by decide

/-- Claim C1 (amended): with trend `UptrendAboveMAs` and volatility
regime `Bearish`, `determine_overall_regime` returns `UncertainMixed`:
the simultaneous bullish trend signal contradicts the bearish volatility
signal, so the combinator flags the pair uncertain instead of letting
bearish volatility take precedence. -/
theorem c1_amended :
    determine_overall_regime TrendState.UptrendAboveMAs.label
        VolatilityRegime.Bearish.label =
      OverallRegime.UncertainMixed.label := by decide

/-- Claim C2: `determine_overall_regime` is total over the 6×4 label
pairs — each pair yields the label of exactly one `OverallRegime` — and
every pair carrying both a bearish-or-downtrend signal and a
bullish-or-uptrend signal yields `UncertainMixed`. -/
theorem c2_combinator_total (t : TrendState) (v : VolatilityRegime) :
    (∃ r : OverallRegime,
        determine_overall_regime t.label v.label = r.label) ∧
    (∀ r₁ r₂ : OverallRegime,
        determine_overall_regime t.label v.label = r₁.label →
        determine_overall_regime t.label v.label = r₂.label → r₁ = r₂) ∧
    (((trendDownB t || (v = VolatilityRegime.Bearish)) &&
        (trendUpB t || (v = VolatilityRegime.Bullish))) = true →
      determine_overall_regime t.label v.label =
        OverallRegime.UncertainMixed.label) := by
  cases t <;> cases v <;> exact ⟨by decide, by decide, by decide⟩

/-- Claim C2 witness: the contradictory pair (DeathCross, Bullish) is
mapped to `UncertainMixed`. -/
theorem c2_witness :
    determine_overall_regime TrendState.DeathCross.label
        VolatilityRegime.Bullish.label =
      OverallRegime.UncertainMixed.label :=
  (c2_combinator_total TrendState.DeathCross VolatilityRegime.Bullish).2.2
    (by decide)

/-- Claim C6: for thresholds with `lo ≤ hi`, `get_vix_regime` returns
`Bearish` when the latest value is strictly above `hi`, `Bullish` when
strictly below `lo`, `Neutral` otherwise, and `DataMissing` on a missing
or empty series. -/
theorem c6_vix_regime (v : Option (List ℚ)) (hi lo : ℚ) (hth : lo ≤ hi) :
    (v = none → get_vix_regime v hi lo = VolatilityRegime.DataMissing.label) ∧
    (v = some [] → get_vix_regime v hi lo = VolatilityRegime.DataMissing.label) ∧
    (∀ l x, v = some l → l.getLast? = some x →
      (hi < x → get_vix_regime v hi lo = VolatilityRegime.Bearish.label) ∧
      (x < lo → get_vix_regime v hi lo = VolatilityRegime.Bullish.label) ∧
      (lo ≤ x → x ≤ hi →
        get_vix_regime v hi lo = VolatilityRegime.Neutral.label)) := by
  refine ⟨?_, ?_, ?_⟩
  · intro h; subst h; rfl
  · intro h; subst h; rfl
  · intro l x hv hx
    subst hv
    simp only [get_vix_regime, hx, VolatilityRegime.label]
    refine ⟨?_, ?_, ?_⟩
    · intro h; rw [if_pos h]
    · intro h
      rw [if_neg (by linarith), if_pos h]
    · intro h1 h2
      rw [if_neg (by linarith), if_neg (by linarith)]

/-- Claim C6 witness: thresholds high 25 / low 20 and latest value 30
yield the bearish label. -/
theorem c6_witness :
    get_vix_regime (some [30]) 25 20 = VolatilityRegime.Bearish.label :=
  (((c6_vix_regime (some [30]) 25 20 (by norm_num)).2.2 [30] 30 rfl rfl)).1
    (by norm_num)

/-- Claim C8 counterexample: with a short window of 3 and a long window
of 2 (short ≥ long), `calculate_moving_averages` raises nothing and
computes both SMA series in full — no parameter validation exists in the
code. -/
theorem c8_counterexample :
    2 ≤ 3 ∧
      calculate_moving_averages (some [1, 2, 3]) 3 2 =
        (some [none, none, some 2],
         some [none, some (3 / 2 : ℚ), some (5 / 2 : ℚ)]) := by
  refine ⟨by norm_num, ?_⟩
  norm_num [calculate_moving_averages, rollingMean, List.range_succ]

/-- Claim C8 (amended): `calculate_moving_averages` performs no
parameter validation: for any windows with `long ≤ short` (and any
windows at all) on a non-empty series it returns both SMA series, each
aligned to the input, and never signals an error. -/
theorem c8_amended (d : List ℚ) (sp lp : ℕ) (_h1 : 1 ≤ lp) (_h2 : lp ≤ sp)
    (hd : d ≠ []) :
    ∃ s l, calculate_moving_averages (some d) sp lp = (some s, some l) ∧
      s.length = d.length ∧ l.length = d.length := by
  refine ⟨rollingMean sp d, rollingMean lp d, ?_, rollingMean_length _ _,
    rollingMean_length _ _⟩
  simp [calculate_moving_averages, hd]

/-- Claim C8 witness: windows 3 and 2 on the series `[1, 2, 3]`. -/
theorem c8_witness :
    ∃ s l, calculate_moving_averages (some [1, 2, 3]) 3 2 =
        (some s, some l) ∧ s.length = 3 ∧ l.length = 3 :=
  c8_amended [1, 2, 3] 3 2 (by decide) (by decide) (by decide)

/-- Comparison with NaN on the left is false. -/
theorem ogt_none_left (b : Option ℚ) : ogt none b = false := by
  cases b <;> rfl

/-- Comparison with NaN on the right is false. -/
theorem ogt_none_right (a : Option ℚ) : ogt a none = false := by
  cases a <;> rfl

/-- Comparison with NaN on the left is false. -/
theorem olt_none_left (b : Option ℚ) : olt none b = false := by
  cases b <;> rfl

/-- Comparison with NaN on the right is false. -/
theorem olt_none_right (a : Option ℚ) : olt a none = false := by
  cases a <;> rfl

/-- A sample is never both strictly above and at-or-below another. -/
theorem ogt_and_ole (a b : Option ℚ) : (ogt a b && ole a b) = false := by
  cases a with
  | none => rfl
  | some x =>
    cases b with
    | none => rfl
    | some y =>
      simp only [ogt, ole, Bool.and_eq_false_iff, decide_eq_false_iff_not]
      by_cases h : y < x
      · exact Or.inr (not_le.mpr h)
      · exact Or.inl h

/-- A sample is never both strictly below and at-or-above another. -/
theorem olt_and_oge (a b : Option ℚ) : (olt a b && oge a b) = false := by
  cases a with
  | none => rfl
  | some x =>
    cases b with
    | none => rfl
    | some y =>
      simp only [olt, oge, Bool.and_eq_false_iff, decide_eq_false_iff_not]
      by_cases h : x < y
      · exact Or.inr (not_le.mpr h)
      · exact Or.inl h

/-- Evaluation of the trend detector once the three `iloc[-1]` reads
succeed. -/
theorem trend_eval (d : List ℚ) (s l : List (Option ℚ)) (c : ℚ)
    (sCur lCur : Option ℚ)
    (hd : d.getLast? = some c) (hs : s.getLast? = some sCur)
    (hl : l.getLast? = some lCur) :
    get_trend_direction_ma (some d) (some s) (some l) =
      some (trendLabel c sCur lCur (prevOf s sCur) (prevOf l lCur)) := by
  simp [get_trend_direction_ma, hd, hs, hl]

/-- When either current MA sample is NaN every branch condition of the
trend label is false, so the mixed label results. -/
theorem trendLabel_nan (c : ℚ) (sCur lCur sPrev lPrev : Option ℚ)
    (h : sCur = none ∨ lCur = none) :
    trendLabel c sCur lCur sPrev lPrev = "Neutral (Between MAs or Mixed)" := by
  rcases h with rfl | rfl
  · simp [trendLabel, ogt_none_left, ogt_none_right, olt_none_left,
      olt_none_right]
  · simp [trendLabel, ogt_none_left, ogt_none_right, olt_none_left,
      olt_none_right]

/-- When the two MA series agree on their current and previous samples,
no branch condition holds and the mixed label results. -/
theorem trendLabel_eq_mas (c : ℚ) (v p : Option ℚ) :
    trendLabel c v v p p = "Neutral (Between MAs or Mixed)" := by
  cases v with
  | none => exact trendLabel_nan c none none p p (Or.inl rfl)
  | some x =>
    simp [trendLabel, ogt, olt, lt_irrefl]

/-- Claim C5: when each SMA series holds exactly one historical point,
the trend detector takes the previous sample equal to the current one,
so it can return neither the golden-cross nor the death-cross label. -/
theorem c5_no_cross_on_single_point (d : List ℚ) (ms ml : List (Option ℚ))
    (hms : ms.length = 1) (hml : ml.length = 1) :
    get_trend_direction_ma (some d) (some ms) (some ml) ≠
        some TrendState.GoldenCross.label ∧
      get_trend_direction_ma (some d) (some ms) (some ml) ≠
        some TrendState.DeathCross.label := by
  obtain ⟨a, rfl⟩ := List.length_eq_one.mp hms
  obtain ⟨b, rfl⟩ := List.length_eq_one.mp hml
  cases hd : d.getLast? with
  | none =>
    constructor <;> simp [get_trend_direction_ma, hd]
  | some c =>
    rw [trend_eval d [a] [b] c a b hd rfl rfl]
    have hp : prevOf [a] a = a := rfl
    have hq : prevOf [b] b = b := rfl
    rw [hp, hq]
    constructor <;>
      · simp only [trendLabel, ogt_and_ole, olt_and_oge, if_false,
          Bool.false_eq_true, TrendState.label]
        split_ifs <;> decide

/-- Claim C5 witness: singleton SMA series over a one-point price
series. -/
theorem c5_witness :
    get_trend_direction_ma (some [5]) (some [some 1]) (some [some 2]) ≠
        some TrendState.GoldenCross.label ∧
      get_trend_direction_ma (some [5]) (some [some 1]) (some [some 2]) ≠
        some TrendState.DeathCross.label :=
  c5_no_cross_on_single_point [5] [some 1] [some 2] rfl rfl

/-- Last sample of a rolling mean over a non-empty series: defined
exactly when the window fits into the series. -/
theorem rollingMean_getLast (w : ℕ) (d : List ℚ) (hd : d ≠ []) :
    (rollingMean w d).getLast? =
      some (if w ≤ d.length then
              some (((d.drop (d.length - w)).take w).sum / (w : ℚ))
            else none) := by
  have hpos : 0 < d.length := List.length_pos.mpr hd
  rw [List.getLast?_eq_getElem?, rollingMean_length, ← List.get?_eq_getElem?,
    rollingMean_get w d (d.length - 1) (by omega)]
  have h1 : d.length - 1 + 1 = d.length := by omega
  rw [h1]

/-- When the window of either moving average exceeds the series length,
its last sample is NaN, every comparison against it is false, and the
detector lands on the mixed label. -/
theorem trend_undefined_last (d : List ℚ) (sp lp : ℕ) (hd : d ≠ [])
    (hw : d.length < sp ∨ d.length < lp) :
    get_trend_direction_ma (some d) (some (rollingMean sp d))
        (some (rollingMean lp d)) =
      some "Neutral (Between MAs or Mixed)" := by
  obtain ⟨c, hc⟩ := Option.isSome_iff_exists.mp (List.getLast?_isSome.mpr hd)
  rw [trend_eval d _ _ c _ _ hc (rollingMean_getLast sp d hd)
    (rollingMean_getLast lp d hd)]
  refine congrArg some (trendLabel_nan c _ _ _ _ ?_)
  rcases hw with h | h
  · exact Or.inl (if_neg (by omega))
  · exact Or.inr (if_neg (by omega))

/-- Claim C10: on a non-empty price series whose most recent short- or
long-SMA sample is undefined (window longer than the history), the trend
detector returns the mixed label, not the data-missing label, because
every comparison with the NaN sample is false. -/
theorem c10_nan_last_gives_mixed (d : List ℚ) (sp lp : ℕ) (hd : d ≠ [])
    (hw : d.length < sp ∨ d.length < lp) :
    get_trend_direction_ma (some d) (some (rollingMean sp d))
        (some (rollingMean lp d)) = some TrendState.NeutralMixed.label ∧
      TrendState.NeutralMixed.label ≠ TrendState.NeutralDataMissing.label :=
  ⟨trend_undefined_last d sp lp hd hw, by decide⟩

/-- Claim C10 witness: a one-point series with windows 2 and 3. -/
theorem c10_witness :
    get_trend_direction_ma (some [5]) (some (rollingMean 2 [5]))
        (some (rollingMean 3 [5])) = some TrendState.NeutralMixed.label ∧
      TrendState.NeutralMixed.label ≠ TrendState.NeutralDataMissing.label :=
  c10_nan_last_gives_mixed [5] 2 3 (by simp) (Or.inl (by simp))

/-- Claim C3 counterexample: a one-point price series with windows 2 and
3 gives SMA series with fewer than 2 defined points each, yet the
detector returns the mixed label instead of the data-missing label. -/
theorem c3_counterexample :
    definedCount (rollingMean 2 [100]) < 2 ∧
      definedCount (rollingMean 3 [100]) < 2 ∧
      get_trend_direction_ma (some [100])
          (calculate_moving_averages (some [100]) 2 3).1
          (calculate_moving_averages (some [100]) 2 3).2 =
        some TrendState.NeutralMixed.label ∧
      TrendState.NeutralMixed.label ≠ TrendState.NeutralDataMissing.label := by
  refine ⟨by decide, by decide, by decide, by decide⟩

/-- Claim C3 (amended): the detector returns the data-missing label
exactly for missing inputs — `None` data or a `None` SMA series, which
is what `calculate_moving_averages` hands it for a `None` or empty price
series. For a non-empty series whose two SMA series have fewer than 2
defined points (window at least the series length), it returns the mixed
label instead. -/
theorem c3_missing_vs_mixed (data : Option (List ℚ))
    (ms ml : Option (List (Option ℚ))) (sp lp : ℕ) :
    (data = none ∨ ms = none ∨ ml = none →
      get_trend_direction_ma data ms ml =
        some TrendState.NeutralDataMissing.label) ∧
    ((data = none ∨ data = some []) →
      get_trend_direction_ma data
          (calculate_moving_averages data sp lp).1
          (calculate_moving_averages data sp lp).2 =
        some TrendState.NeutralDataMissing.label) ∧
    (∀ d, data = some d → d ≠ [] → d.length ≤ sp → d.length ≤ lp →
      get_trend_direction_ma data
          (calculate_moving_averages data sp lp).1
          (calculate_moving_averages data sp lp).2 =
        some TrendState.NeutralMixed.label) := by
  refine ⟨?_, ?_, ?_⟩
  · rintro (rfl | rfl | rfl)
    · cases ms <;> cases ml <;> rfl
    · cases data <;> cases ml <;> rfl
    · cases data <;> cases ms <;> rfl
  · rintro (rfl | rfl) <;> rfl
  · rintro d rfl hd hsp hlp
    have hne : d.isEmpty = false := by
      simpa [List.isEmpty_iff] using hd
    have hcalc : calculate_moving_averages (some d) sp lp =
        (some (rollingMean sp d), some (rollingMean lp d)) := by
      simp [calculate_moving_averages, hne]
    rw [hcalc]
    by_cases hlt : d.length < sp ∨ d.length < lp
    · exact trend_undefined_last d sp lp hd hlt
    · push_neg at hlt
      have hsp' : sp = d.length := le_antisymm hlt.1 hsp
      have hlp' : lp = sp := by omega
      rw [hlp']
      obtain ⟨c, hc⟩ :=
        Option.isSome_iff_exists.mp (List.getLast?_isSome.mpr hd)
      have hsne : rollingMean sp d ≠ [] := by
        have hl := rollingMean_length sp d
        have hpos : 0 < d.length := List.length_pos.mpr hd
        exact List.length_pos.mp (by omega)
      obtain ⟨v, hv⟩ :=
        Option.isSome_iff_exists.mp (List.getLast?_isSome.mpr hsne)
      rw [trend_eval d _ _ c v v hc hv hv]
      exact congrArg some (trendLabel_eq_mas c v _)

/-- Claim C3 witness: missing data propagates to the data-missing
label. -/
theorem c3_witness :
    get_trend_direction_ma none none none =
      some TrendState.NeutralDataMissing.label :=
  (c3_missing_vs_mixed none none none 2 3).1 (Or.inl rfl)

/-- Claim C4: with at least two defined samples per SMA series (the two
most recent positions of each rolling mean carry values, and the series
has at least two samples), the detector classifies by those two most
recent defined points: golden cross iff short is now strictly above long
after being at-or-below it, death cross iff the mirrored condition. -/
theorem c4_crossover (d : List ℚ) (sp lp : ℕ) (c s1 s2 l1 l2 : ℚ)
    (hd : d.getLast? = some c) (hlen : 1 < d.length)
    (hs1 : (rollingMean sp d).getLast? = some (some s1))
    (hs2 : ((rollingMean sp d).get?
        ((rollingMean sp d).length - 2)).join = some s2)
    (hl1 : (rollingMean lp d).getLast? = some (some l1))
    (hl2 : ((rollingMean lp d).get?
        ((rollingMean lp d).length - 2)).join = some l2) :
    (get_trend_direction_ma (some d) (some (rollingMean sp d))
          (some (rollingMean lp d)) = some TrendState.GoldenCross.label ↔
        l1 < s1 ∧ s2 ≤ l2) ∧
      (get_trend_direction_ma (some d) (some (rollingMean sp d))
          (some (rollingMean lp d)) = some TrendState.DeathCross.label ↔
        s1 < l1 ∧ l2 ≤ s2) := by
  rw [trend_eval d _ _ c (some s1) (some l1) hd hs1 hl1]
  have hps : prevOf (rollingMean sp d) (some s1) = some s2 := by
    rw [prevOf, if_pos (by rw [rollingMean_length]; omega)]
    exact hs2
  have hpl : prevOf (rollingMean lp d) (some l1) = some l2 := by
    rw [prevOf, if_pos (by rw [rollingMean_length]; omega)]
    exact hl2
  rw [hps, hpl]
  simp only [trendLabel, ogt, olt, oge, ole, Bool.and_eq_true,
    decide_eq_true_eq, Option.some.injEq, TrendState.label]
  split_ifs with h1 h2 h3 h4
  · exact ⟨⟨fun _ => h1, fun _ => rfl⟩,
      ⟨fun h => absurd h (by decide), fun hB => absurd hB.1 (lt_asymm h1.1)⟩⟩
  · exact ⟨⟨fun h => absurd h (by decide), fun hA => absurd hA h1⟩,
      ⟨fun _ => h2, fun _ => rfl⟩⟩
  · exact ⟨⟨fun h => absurd h (by decide), fun hA => absurd hA h1⟩,
      ⟨fun h => absurd h (by decide), fun hB => absurd hB h2⟩⟩
  · exact ⟨⟨fun h => absurd h (by decide), fun hA => absurd hA h1⟩,
      ⟨fun h => absurd h (by decide), fun hB => absurd hB h2⟩⟩
  · exact ⟨⟨fun h => absurd h (by decide), fun hA => absurd hA h1⟩,
      ⟨fun h => absurd h (by decide), fun hB => absurd hB h2⟩⟩

/-- Claim C4 witness: on closes `[10, 10, 40]` with windows 1 and 2 the
short SMA crosses above the long SMA at the last sample, and the
detector reports the golden cross. -/
theorem c4_witness :
    get_trend_direction_ma (some [10, 10, 40])
        (some (rollingMean 1 [10, 10, 40]))
        (some (rollingMean 2 [10, 10, 40])) =
      some TrendState.GoldenCross.label := by
  have e1 : rollingMean 1 [10, 10, 40] = [some 10, some 10, some 40] := by
    norm_num [rollingMean, List.range_succ]
  have e2 : rollingMean 2 [10, 10, 40] = [none, some 10, some 25] := by
    norm_num [rollingMean, List.range_succ]
  refine (c4_crossover [10, 10, 40] 1 2 40 40 10 25 10 rfl (by norm_num)
    ?_ ?_ ?_ ?_).1.mpr ⟨by norm_num, le_refl 10⟩
  · rw [e1]; rfl
  · rw [e1]; rfl
  · rw [e2]; rfl
  · rw [e2]; rfl

/-- Counting the indices of `range n` whose one-based position reaches
`w`. -/
theorem range_filter_ge_length (n w : ℕ) :
    ((List.range n).filter (fun i => decide (w ≤ i + 1))).length =
      n - (w - 1) := by
  induction n with
  | zero => simp
  | succ n ih =>
    rw [List.range_succ, List.filter_append, List.length_append, ih]
    by_cases h : w ≤ n + 1
    · have he : (List.filter (fun i => decide (w ≤ i + 1)) [n]).length = 1 := by
        simp [List.filter_cons, h]
      rw [he]; omega
    · have he : (List.filter (fun i => decide (w ≤ i + 1)) [n]).length = 0 := by
        simp [List.filter_cons, h]
      rw [he]; omega

/-- Number of defined samples of a rolling mean. -/
theorem definedCount_rollingMean (w : ℕ) (d : List ℚ) :
    definedCount (rollingMean w d) = d.length - (w - 1) := by
  rw [definedCount, rollingMean, List.filter_map, List.length_map]
  have hfun : (Option.isSome ∘ fun i =>
      if w ≤ i + 1 then
        some (((d.drop (i + 1 - w)).take w).sum / (w : ℚ))
      else none) = fun i => decide (w ≤ i + 1) := by
    funext i
    by_cases h : w ≤ i + 1 <;> simp [h]
  rw [hfun, range_filter_ge_length]

/-- Pointwise characterization of a rolling mean for a valid window:
aligned length, defined-sample count, NaN below the window, and the
arithmetic mean of the window-length slice elsewhere. -/
theorem rollingMean_props (d : List ℚ) (w : ℕ) (hw1 : 1 ≤ w)
    (hw2 : w ≤ d.length) :
    (rollingMean w d).length = d.length ∧
    definedCount (rollingMean w d) = d.length - w + 1 ∧
    (∀ i, i + 1 < w → (rollingMean w d).get? i = some none) ∧
    (∀ i, w ≤ i + 1 → i < d.length →
      ((d.drop (i + 1 - w)).take w).length = w ∧
      (rollingMean w d).get? i =
        some (some (((d.drop (i + 1 - w)).take w).sum / (w : ℚ)))) := by
  refine ⟨rollingMean_length w d, ?_, ?_, ?_⟩
  · rw [definedCount_rollingMean]; omega
  · intro i h
    rw [rollingMean_get w d i (by omega), if_neg (by omega)]
  · intro i h hi
    refine ⟨?_, ?_⟩
    · rw [List.length_take, List.length_drop]; omega
    · rw [rollingMean_get w d i hi, if_pos h]

/-- Claim C7: for valid windows, each SMA series computed by
`calculate_moving_averages` is aligned to the price series, has exactly
`len - w + 1` defined samples, is NaN at every index `i` with
`i < w - 1`, and at every index `i ≥ w - 1` equals the arithmetic mean
of the `w` closes ending at `i` (a slice of length exactly `w`). -/
theorem c7_sma_values (d : List ℚ) (ws wl : ℕ) (s l : List (Option ℚ))
    (hcalc : calculate_moving_averages (some d) ws wl = (some s, some l))
    (hws1 : 1 ≤ ws) (hws2 : ws ≤ d.length)
    (hwl1 : 1 ≤ wl) (hwl2 : wl ≤ d.length) :
    (s.length = d.length ∧ definedCount s = d.length - ws + 1 ∧
      (∀ i, i + 1 < ws → s.get? i = some none) ∧
      (∀ i, ws ≤ i + 1 → i < d.length →
        ((d.drop (i + 1 - ws)).take ws).length = ws ∧
        s.get? i =
          some (some (((d.drop (i + 1 - ws)).take ws).sum / (ws : ℚ))))) ∧
    (l.length = d.length ∧ definedCount l = d.length - wl + 1 ∧
      (∀ i, i + 1 < wl → l.get? i = some none) ∧
      (∀ i, wl ≤ i + 1 → i < d.length →
        ((d.drop (i + 1 - wl)).take wl).length = wl ∧
        l.get? i =
          some (some (((d.drop (i + 1 - wl)).take wl).sum / (wl : ℚ))))) := by
  have hd : d ≠ [] := by
    intro h
    subst h
    simp [calculate_moving_averages] at hcalc
  have hne : d.isEmpty = false := by simpa [List.isEmpty_iff] using hd
  simp only [calculate_moving_averages, hne, Bool.false_eq_true, if_false,
    Prod.mk.injEq, Option.some.injEq] at hcalc
  obtain ⟨hs, hl⟩ := hcalc
  subst hs
  subst hl
  exact ⟨rollingMean_props d ws hws1 hws2, rollingMean_props d wl hwl1 hwl2⟩

/-- Claim C7 witness: windows 2 and 3 on a three-point series give 2 and
1 defined SMA samples. -/
theorem c7_witness :
    definedCount (rollingMean 2 [1, 2, 3]) = 2 ∧
      definedCount (rollingMean 3 [1, 2, 3]) = 1 :=
  ⟨(c7_sma_values [1, 2, 3] 2 3 (rollingMean 2 [1, 2, 3])
      (rollingMean 3 [1, 2, 3]) rfl (by norm_num) (by norm_num)
      (by norm_num) (by norm_num)).1.2.1,
   (c7_sma_values [1, 2, 3] 2 3 (rollingMean 2 [1, 2, 3])
      (rollingMean 3 [1, 2, 3]) rfl (by norm_num) (by norm_num)
      (by norm_num) (by norm_num)).2.2.1⟩

/-- Every per-step gain is non-negative. -/
theorem gainsOf_nonneg (c : List ℚ) : ∀ x ∈ gainsOf c, 0 ≤ x := by
  induction c with
  | nil => simp [gainsOf]
  | cons a t ih =>
    cases t with
    | nil => simp [gainsOf]
    | cons b r =>
      intro x hx
      rw [gainsOf] at hx
      rcases List.mem_cons.mp hx with rfl | hx
      · exact le_max_right _ _
      · exact ih x hx

/-- Every per-step loss is non-negative. -/
theorem lossesOf_nonneg (c : List ℚ) : ∀ x ∈ lossesOf c, 0 ≤ x := by
  induction c with
  | nil => simp [lossesOf]
  | cons a t ih =>
    cases t with
    | nil => simp [lossesOf]
    | cons b r =>
      intro x hx
      rw [lossesOf] at hx
      rcases List.mem_cons.mp hx with rfl | hx
      · exact le_max_right _ _
      · exact ih x hx

/-- The rolling average gain is non-negative. -/
theorem avgGain_nonneg (w : ℕ) (c : List ℚ) (i : ℕ) : 0 ≤ avgGain w c i := by
  apply div_nonneg
  · apply List.sum_nonneg
    intro x hx
    exact gainsOf_nonneg c x
      (List.drop_subset _ _ (List.take_subset _ _ hx))
  · exact Nat.cast_nonneg w

/-- The rolling average loss is non-negative. -/
theorem avgLoss_nonneg (w : ℕ) (c : List ℚ) (i : ℕ) : 0 ≤ avgLoss w c i := by
  apply div_nonneg
  · apply List.sum_nonneg
    intro x hx
    exact lossesOf_nonneg c x
      (List.drop_subset _ _ (List.take_subset _ _ hx))
  · exact Nat.cast_nonneg w

/-- Pointwise description of the RSI series at an in-range index. -/
theorem rsi_get (w : ℕ) (c : List ℚ) (i : ℕ) (h : i < c.length) :
    (rsi w c).get? i =
      some (if w ≤ i then
              some (if avgLoss w c i = 0 then 100
                    else 100 - 100 / (1 + avgGain w c i / avgLoss w c i))
            else none) := by
  simp [rsi, List.get?_eq_getElem?, List.getElem?_map, List.getElem?_range, h]

/-- Claim C9: every defined RSI sample lies in `[0, 100]`, and it equals
100 whenever the rolling average loss is 0 (in particular with a positive
average gain), saturating instead of dividing by zero. -/
theorem c9_rsi_bounded (w : ℕ) (c : List ℚ) (i : ℕ) (x : ℚ)
    (hx : (rsi w c).get? i = some (some x)) :
    (0 ≤ x ∧ x ≤ 100) ∧
      (avgLoss w c i = 0 → 0 < avgGain w c i → x = 100) := by
  have hi : i < c.length := by
    by_contra hi
    have hnone : (rsi w c).get? i = none := by
      rw [List.get?_eq_getElem?, List.getElem?_eq_none]
      simp only [rsi, List.length_map, List.length_range]
      omega
    rw [hnone] at hx
    exact Option.noConfusion hx
  rw [rsi_get w c i hi] at hx
  by_cases hw : w ≤ i
  · rw [if_pos hw, Option.some.injEq, Option.some.injEq] at hx
    by_cases hl : avgLoss w c i = 0
    · rw [if_pos hl] at hx
      subst hx
      exact ⟨⟨by norm_num, le_refl _⟩, fun _ _ => rfl⟩
    · rw [if_neg hl] at hx
      subst hx
      have hl0 : 0 < avgLoss w c i :=
        lt_of_le_of_ne (avgLoss_nonneg w c i) (Ne.symm hl)
      have hg : 0 ≤ avgGain w c i / avgLoss w c i :=
        div_nonneg (avgGain_nonneg w c i) hl0.le
      have h1 : (1 : ℚ) ≤ 1 + avgGain w c i / avgLoss w c i := by linarith
      have hq1 : 100 / (1 + avgGain w c i / avgLoss w c i) ≤ 100 :=
        div_le_self (by norm_num) h1
      have hq0 : 0 < 100 / (1 + avgGain w c i / avgLoss w c i) :=
        div_pos (by norm_num) (by linarith)
      exact ⟨⟨by linarith, by linarith⟩, fun h0 _ => absurd h0 hl⟩
  · rw [if_neg hw] at hx
    exact Option.noConfusion (Option.some.inj hx)

/-- Claim C9 witness: strictly rising closes give zero average loss and
a saturated RSI of 100. -/
theorem c9_witness :
    ((0 : ℚ) ≤ 100 ∧ (100 : ℚ) ≤ 100) ∧
      (avgLoss 2 [1, 2, 3] 2 = 0 → 0 < avgGain 2 [1, 2, 3] 2 →
        (100 : ℚ) = 100) := by
  apply c9_rsi_bounded 2 [1, 2, 3] 2 100
  have hl : lossesOf [1, 2, 3] = [0, 0] := by
    norm_num [lossesOf]
  have hz : avgLoss 2 [1, 2, 3] 2 = 0 := by
    rw [avgLoss, hl]
    norm_num
  rw [rsi_get 2 [1, 2, 3] 2 (by norm_num), if_pos (by norm_num), if_pos hz]
